import Mathlib

/-
  Shallow embedding of the model-styler scene framework core:
  SceneManager (src/engine/core/SceneManager.js), RayCast, and the
  FirstPerson camera manager core.  JavaScript Maps are modelled as
  association lists in insertion order (JS Map preserves insertion order;
  set on an existing key updates in place, delete removes the entry; keys
  are unique in every state the code builds, so delete is modelled as
  removing every matching entry).  Lifecycle and message hooks
  (onMessage, onSceneStart, onSceneEnd) are recorded as an event list
  rather than executed, since the hooks are arbitrary client callbacks;
  the claims are about which hooks are invoked, with which arguments and
  in which order.  Message payloads are modelled as Nat.
-/

namespace ModelStyler

/-- Lookup in a JS Map modelled as an association list: first matching key. -/
def mapGet {α : Type} (m : List (String × α)) (k : String) : Option α :=
  match m with
  | [] => none
  | (k₁, v) :: t => if k₁ = k then some v else mapGet t k

/-- JS Map.set: update in place when the key is present, append otherwise. -/
def mapSet {α : Type} (m : List (String × α)) (k : String) (v : α) : List (String × α) :=
  match m with
  | [] => [(k, v)]
  | (k₁, v₁) :: t => if k₁ = k then (k, v) :: t else (k₁, v₁) :: mapSet t k v

/-- JS Map.delete: remove the entry for the key (keys are unique in every
reachable state, so removing every match is the same operation). -/
def mapDelete {α : Type} (m : List (String × α)) (k : String) : List (String × α) :=
  match m with
  | [] => []
  | (k₁, v₁) :: t => if k₁ = k then mapDelete t k else (k₁, v₁) :: mapDelete t k

/-- A message record as built by SceneManager.broadcastTo:
JS object with fields from, to, data (from is a Lean keyword, renamed sender). -/
structure Msg where
  sender : String
  recipient : String
  data : Nat
deriving DecidableEq

/-- Observable hook invocations made by the SceneManager / renderer facade. -/
inductive Ev where
  | onMessage (receiver sender : String) (data : Nat)
  | onSceneStart (name : String)
  | onSceneEnd (name : String)
  | outline (objects : List Nat)
deriving DecidableEq

/-- An element of RayCast.raycastObjects.  RayCast.add pushes THREE objects
(modelled by their identity, a Nat); RayCast.remove line 41 reassigns the
list to Array.from of the map values, whose elements are arrays of objects,
so an element may also be an array. -/
inductive Pickable where
  | obj (id : Nat)
  | arr (ids : List Nat)
deriving DecidableEq

/-- One intersection record from the underlying three.js intersection test:
distance from camera and the hit object identity (point and face metadata
are not needed by any claim). -/
structure Hit where
  distance : ℚ
  object : Nat
deriving DecidableEq

/-- State of RayCast: the per-owner-name map and the flat pickable list. -/
structure RC where
  raycastObjectMap : List (String × List Nat)
  raycastObjects : List Pickable
deriving DecidableEq

/-- The state the RayCast constructor builds. -/
def RC.init : RC := ⟨[], []⟩

/-- RayCast.add(name, raycastObject): append to the per-name list (creating
it when absent) and push on the flat list. -/
def rcAdd (rc : RC) (name : String) (raycastObject : Nat) : RC :=
  let m :=
    match mapGet rc.raycastObjectMap name with
    | some objects => mapSet rc.raycastObjectMap name (objects ++ [raycastObject])
    | none => mapSet rc.raycastObjectMap name [raycastObject]
  { raycastObjectMap := m,
    raycastObjects := rc.raycastObjects ++ [Pickable.obj raycastObject] }

/-- JS `arr.splice(arr.indexOf(x), 1)`: remove the element at the index of x;
when x is absent indexOf yields -1 and splice(-1, 1) removes the last element. -/
def jsSpliceRemove (l : List Pickable) (x : Pickable) : List Pickable :=
  match l.findIdx? (fun p => decide (p = x)) with
  | some i => l.eraseIdx i
  | none => l.dropLast

/-- RayCast.remove(name): when the name has a map entry, splice each of its
objects out of the flat list, then reassign the flat list to Array.from of
the map values (the map entry itself is never deleted, and the values are
arrays, so the reassignment discards the splice results and stores one
array element per name). -/
def rcRemove (rc : RC) (name : String) : RC :=
  match mapGet rc.raycastObjectMap name with
  | none => rc
  | some objects =>
    let rc₁ := { rc with
      raycastObjects :=
        objects.foldl (fun acc o => jsSpliceRemove acc (Pickable.obj o)) rc.raycastObjects }
    { rc₁ with
      raycastObjects := rc₁.raycastObjectMap.map (fun kv => Pickable.arr kv.2) }

/-- RayCast.raycastFromCamera(ndcCoord, cameraManager): the three.js
raycaster setFromCamera plus intersectObjects call is an external
collaborator and is passed in as the function `intersect`, applied to the
normalized device coordinate and the current flat pickable list.  The
source returns the hit list when non-empty and [] otherwise. -/
def raycastFromCamera (intersect : ℚ × ℚ → List Pickable → List Hit)
    (rc : RC) (ndcCoord : ℚ × ℚ) : List Hit :=
  let hitObjects := intersect ndcCoord rc.raycastObjects
  if hitObjects.length > 0 then hitObjects else []

/-- One entry of a SceneObject drawable list: the wrapped THREE object
identity and its isRayCastable flag. -/
structure Drawable where
  object : Nat
  isRayCastable : Bool
deriving DecidableEq

/-- A SceneObject as observed by SceneManager: its name, the result of its
isDrawable() method, and its drawable and light lists (light entries are the
light.object identities).  The polymorphic isReady() check can change over
time (assets loading), so readiness is an input of each operation that
queries it, not a field. -/
structure SceneObj where
  name : String
  drawable : Bool
  drawables : List Drawable
  lights : List Nat
deriving DecidableEq

/-- SceneManager state.  The renderer collaborator (SceneRenderer.js is not
part of the sources) is modelled from the spec: Renderer.add(object)
appends the object, Renderer.remove(object) removes that object; the
hasLights flag of add is internal to the renderer and dropped. -/
structure SM where
  sceneObjectMap : List (String × SceneObj)
  inactiveObjNameMap : List (String × Unit)
  messageMap : List (String × List Msg)
  raycaster : RC
  renderer : List Nat
deriving DecidableEq

/-- The state the SceneManager constructor builds. -/
def SM.init : SM := ⟨[], [], [], RC.init, []⟩

/-- SceneManager.checkForMessages: when the mailbox has an entry for the
object name, invoke its message hook once per queued message in list order
and delete the entry. -/
def checkForMessages (s : SM) (obj : SceneObj) : SM × List Ev :=
  match mapGet s.messageMap obj.name with
  | some messages =>
    ({ s with messageMap := mapDelete s.messageMap obj.name },
     messages.map (fun m => Ev.onMessage obj.name m.sender m.data))
  | none => (s, [])

/-- The event list checkForMessages produces, as a function of the mailbox
map and the recipient name. -/
def deliverEvs (mm : List (String × List Msg)) (nm : String) : List Ev :=
  match mapGet mm nm with
  | some messages => messages.map (fun m => Ev.onMessage nm m.sender m.data)
  | none => []

/-- One iteration of the drawables loop of SceneManager.addToScene:
renderer.add the drawable object and, when isRayCastable, register it with
RayCast under the owning object name. -/
def addDrawableStep (nm : String) (acc : SM) (d : Drawable) : SM :=
  let acc₁ := { acc with renderer := acc.renderer ++ [d.object] }
  if d.isRayCastable then
    { acc₁ with raycaster := rcAdd acc₁.raycaster nm d.object }
  else acc₁

/-- One iteration of the lights loop of SceneManager.addToScene. -/
def addLightStep (acc : SM) (l : Nat) : SM :=
  { acc with renderer := acc.renderer ++ [l] }

/-- SceneManager.addToScene: for each drawable, renderer.add it and, when
isRayCastable, register it with RayCast under the object name; then
renderer.add each light. -/
def addToScene (s : SM) (obj : SceneObj) : SM :=
  obj.lights.foldl addLightStep (obj.drawables.foldl (addDrawableStep obj.name) s)

/-- One iteration of the drawables loop of SceneManager.removeFromScene:
renderer.remove the drawable object and, when isRayCastable,
RayCast.remove the owning object name. -/
def removeDrawableStep (nm : String) (acc : SM) (d : Drawable) : SM :=
  let acc₁ := { acc with renderer := acc.renderer.erase d.object }
  if d.isRayCastable then
    { acc₁ with raycaster := rcRemove acc₁.raycaster nm }
  else acc₁

/-- One iteration of the lights loop of SceneManager.removeFromScene. -/
def removeLightStep (acc : SM) (l : Nat) : SM :=
  { acc with renderer := acc.renderer.erase l }

/-- SceneManager.removeFromScene: for each drawable, renderer.remove it and,
when isRayCastable, RayCast.remove the object name; then renderer.remove
each light. -/
def removeFromScene (s : SM) (obj : SceneObj) : SM :=
  obj.lights.foldl removeLightStep (obj.drawables.foldl (removeDrawableStep obj.name) s)

/-- SceneManager.register: store the object under its name; when drawable
and not ready park it in the awaiting map; otherwise, when ready, add it to
the scene and fire its start hook; finally deliver any queued mailbox
messages.  The polymorphic isReady() answer at this call is `ready`. -/
def register (s : SM) (obj : SceneObj) (ready : Bool) : SM × List Ev :=
  let s₁ := { s with sceneObjectMap := mapSet s.sceneObjectMap obj.name obj }
  let (s₂, evs) :=
    if obj.drawable && !ready then
      ({ s₁ with inactiveObjNameMap := mapSet s₁.inactiveObjNameMap obj.name () }, [])
    else if ready then
      (addToScene s₁ obj, [Ev.onSceneStart obj.name])
    else (s₁, [])
  let (s₃, evs₂) := checkForMessages s₂ obj
  (s₃, evs ++ evs₂)

/-- SceneManager.unregister: when the name is registered, remove the object
from the scene, fire its end hook and delete the registry entry; otherwise
do nothing. -/
def unregister (s : SM) (name : String) : SM × List Ev :=
  match mapGet s.sceneObjectMap name with
  | some obj =>
    let s₁ := removeFromScene s obj
    ({ s₁ with sceneObjectMap := mapDelete s₁.sceneObjectMap name },
     [Ev.onSceneEnd name])
  | none => (s, [])

/-- SceneManager.broadcastTo: deliver synchronously when the recipient is
registered; otherwise append the message record to its mailbox queue,
creating the queue when absent. -/
def broadcastTo (s : SM) (sender toName : String) (data : Nat) : SM × List Ev :=
  match mapGet s.sceneObjectMap toName with
  | some obj => (s, [Ev.onMessage obj.name sender data])
  | none =>
    match mapGet s.messageMap toName with
    | none =>
      ({ s with messageMap := mapSet s.messageMap toName [⟨sender, toName, data⟩] }, [])
    | some messages =>
      ({ s with messageMap := mapSet s.messageMap toName (messages ++ [⟨sender, toName, data⟩]) }, [])

/-- SceneManager.broadcastToAll: iterate the registry keys in insertion
order and deliver to every stored object whose key differs from the sender. -/
def broadcastToAll (s : SM) (sender : String) (data : Nat) : SM × List Ev :=
  (s, s.sceneObjectMap.filterMap
    (fun kv => if kv.1 ≠ sender then some (Ev.onMessage kv.2.name sender data) else none))

/-- SceneManager.queryReadyObjects: iterate the awaiting names; each is
looked up in the registry without a presence check, so a missing name makes
the JS dereference undefined.isReady() throw — modelled as `none`.  A name
whose object is now ready is added to the scene, receives its start hook
and leaves the awaiting map.  Readiness answers are given by `ready`. -/
def queryReadyObjects (s : SM) (ready : String → Bool) : Option (SM × List Ev) :=
  (s.inactiveObjNameMap.map Prod.fst).foldl
    (fun acc nm =>
      match acc with
      | none => none
      | some (st, evs) =>
        match mapGet st.sceneObjectMap nm with
        | none => none
        | some obj =>
          if ready nm then
            let st₁ := addToScene st obj
            some ({ st₁ with inactiveObjNameMap := mapDelete st₁.inactiveObjNameMap nm },
                  evs ++ [Ev.onSceneStart nm])
          else some (st, evs))
    (some (s, []))

/-- SceneManager.shootRayFromCamera: when the raster coordinate exists and
lies inside the viewport (W by H, the window dimensions), convert it to a
normalized device coordinate and query RayCast; when outlineNearest holds
and there is a hit, ask the renderer to outline the first hit object.
Out-of-viewport or missing coordinates yield the empty hit list. -/
def shootRayFromCamera (W H : ℚ) (intersect : ℚ × ℚ → List Pickable → List Hit)
    (rc : RC) (rasterCoord : Option (ℚ × ℚ)) (outlineNearest : Bool) :
    List Hit × List Ev :=
  match rasterCoord with
  | some c =>
    if 0 ≤ c.1 ∧ c.1 < W ∧ 0 ≤ c.2 ∧ c.2 < H then
      let ndcX := c.1 / W * 2 - 1
      let ndcY := -(c.2 / H) * 2 + 1
      let hitPointData := raycastFromCamera intersect rc (ndcX, ndcY)
      (hitPointData,
       match outlineNearest, hitPointData with
       | true, h :: _ => [Ev.outline [h.object]]
       | _, _ => [])
    else ([], [])
  | none => ([], [])

/-- Camera state of FirstPersonCameraManagerCore: the three.js camera
rotation (Euler angles, radians) and position. -/
structure FPCam where
  rotX : ℚ
  rotY : ℚ
  rotZ : ℚ
  posX : ℚ
  posY : ℚ
  posZ : ℚ
deriving DecidableEq

/-- Modelled from the spec: Maths.toDegrees lives in
src/engine/helpers/maths.js, which is not among the sources; it is the
standard radians-to-degrees conversion, multiplication by the positive
constant 180 divided by pi.  That constant is irrational, so it is kept as
the parameter c, which every theorem quantifies over. -/
def toDegrees (c x : ℚ) : ℚ := x * c

/-- FirstPersonCameraManagerCore.onMoveEvent: compute the proposed pitch in
degrees from the current rotation.x minus deltaY; apply it only when it is
strictly between -85 and 85; then always subtract deltaX from rotation.y.
The cursor position arguments are unused by the source. -/
def onMoveEvent (c : ℚ) (st : FPCam) (deltaX deltaY _xpos _ypos : ℚ) : FPCam :=
  let pitchDeg := toDegrees c (st.rotX - deltaY)
  let st₁ := if -85 < pitchDeg ∧ pitchDeg < 85 then { st with rotX := st.rotX - deltaY } else st
  { st₁ with rotY := st₁.rotY - deltaX }

/-- A sequence of cursor-drag move events (deltaX, deltaY, x, y) applied in
order. -/
def runMoves (c : ℚ) (st : FPCam) (evs : List (ℚ × ℚ × ℚ × ℚ)) : FPCam :=
  evs.foldl (fun s e => onMoveEvent c s e.1 e.2.1 e.2.2.1 e.2.2.2) st

/-- Whether an event is a message-hook invocation. -/
def isMsgEv : Ev → Bool
  | Ev.onMessage _ _ _ => true
  | _ => false

/-- Whether an event is the start hook of the given name. -/
def isStartEvFor (nm : String) : Ev → Bool
  | Ev.onSceneStart n => n = nm
  | _ => false

/-- How many times the start hook of the given name fires in an event list. -/
def countStart (evs : List Ev) (nm : String) : Nat :=
  (evs.filter (isStartEvFor nm)).length

/-- The hit list is ordered by non-decreasing distance from the camera. -/
def sortedByDistance : List Hit → Bool
  | [] => true
  | [_] => true
  | a :: b :: t => decide (a.distance ≤ b.distance) && sortedByDistance (b :: t)

lemma mapGet_mapSet_self {α : Type} (m : List (String × α)) (k : String) (v : α) :
    mapGet (mapSet m k v) k = some v := by
  induction m with
  | nil => simp [mapGet, mapSet]
  | cons kv t ih =>
    obtain ⟨k₁, v₁⟩ := kv
    by_cases h : k₁ = k <;> simp [mapGet, mapSet, h, ih]

lemma mapGet_mapDelete_self {α : Type} (m : List (String × α)) (k : String) :
    mapGet (mapDelete m k) k = none := by
  induction m with
  | nil => simp [mapGet, mapDelete]
  | cons kv t ih =>
    obtain ⟨k₁, v₁⟩ := kv
    by_cases h : k₁ = k <;> simp [mapGet, mapDelete, h, ih]

lemma addDrawables_spec (nm : String) (ds : List Drawable) (s : SM) :
    ds.foldl (addDrawableStep nm) s =
      { s with
        renderer := s.renderer ++ ds.map (fun d => d.object),
        raycaster := (ds.filter (fun d => d.isRayCastable)).foldl
          (fun rc d => rcAdd rc nm d.object) s.raycaster } := by
  induction ds generalizing s with
  | nil => simp
  | cons d t ih =>
    by_cases h : d.isRayCastable = true <;>
      simp [addDrawableStep, h, ih, List.filter_cons]

lemma addLights_spec (ls : List Nat) (s : SM) :
    ls.foldl addLightStep s = { s with renderer := s.renderer ++ ls } := by
  induction ls generalizing s with
  | nil => simp
  | cons l t ih => simp [addLightStep, ih]

lemma addToScene_spec (s : SM) (obj : SceneObj) :
    addToScene s obj =
      { s with
        renderer := s.renderer ++ obj.drawables.map (fun d => d.object) ++ obj.lights,
        raycaster := (obj.drawables.filter (fun d => d.isRayCastable)).foldl
          (fun rc d => rcAdd rc obj.name d.object) s.raycaster } := by
  rw [addToScene, addDrawables_spec, addLights_spec]

lemma checkForMessages_snd (s : SM) (obj : SceneObj) :
    (checkForMessages s obj).2 = deliverEvs s.messageMap obj.name := by
  cases h : mapGet s.messageMap obj.name <;> simp [checkForMessages, deliverEvs, h]

lemma checkForMessages_renderer (s : SM) (obj : SceneObj) :
    (checkForMessages s obj).1.renderer = s.renderer := by
  cases h : mapGet s.messageMap obj.name <;> simp [checkForMessages, h]

lemma checkForMessages_sceneObjectMap (s : SM) (obj : SceneObj) :
    (checkForMessages s obj).1.sceneObjectMap = s.sceneObjectMap := by
  cases h : mapGet s.messageMap obj.name <;> simp [checkForMessages, h]

lemma checkForMessages_inactive (s : SM) (obj : SceneObj) :
    (checkForMessages s obj).1.inactiveObjNameMap = s.inactiveObjNameMap := by
  cases h : mapGet s.messageMap obj.name <;> simp [checkForMessages, h]

lemma checkForMessages_messageMap_self (s : SM) (obj : SceneObj) :
    mapGet (checkForMessages s obj).1.messageMap obj.name = none := by
  cases h : mapGet s.messageMap obj.name <;>
    simp [checkForMessages, h, mapGet_mapDelete_self]

lemma deliverEvs_filter_msg (mm : List (String × List Msg)) (nm : String) :
    (deliverEvs mm nm).filter isMsgEv = deliverEvs mm nm := by
  cases h : mapGet mm nm with
  | none => simp [deliverEvs, h]
  | some ms =>
    simp only [deliverEvs, h]
    induction ms with
    | nil => rfl
    | cons m t ih => simp [isMsgEv, ih]

lemma deliverEvs_filter_start (mm : List (String × List Msg)) (nm nm₁ : String) :
    (deliverEvs mm nm₁).filter (isStartEvFor nm) = [] := by
  cases h : mapGet mm nm₁ with
  | none => simp [deliverEvs, h]
  | some ms =>
    simp only [deliverEvs, h]
    induction ms with
    | nil => rfl
    | cons m t ih => simp [isStartEvFor, ih]

/-- Register produces exactly the branch event (start hook when the ready
branch is taken) followed by the queued mailbox deliveries. -/
lemma register_events (s : SM) (obj : SceneObj) (ready : Bool) :
    (register s obj ready).2 =
      (if obj.drawable && !ready then []
       else if ready then [Ev.onSceneStart obj.name]
       else []) ++ deliverEvs s.messageMap obj.name := by
  cases hd : obj.drawable <;> cases hr : ready <;>
    simp [register, hd, hr, checkForMessages_snd, addToScene_spec]

lemma register_messageMap_self (s : SM) (obj : SceneObj) (ready : Bool) :
    mapGet (register s obj ready).1.messageMap obj.name = none := by
  cases hd : obj.drawable <;> cases hr : ready <;>
    simp [register, hd, hr, checkForMessages_messageMap_self]

lemma register_renderer_ready (s : SM) (obj : SceneObj) :
    (register s obj true).1.renderer =
      s.renderer ++ obj.drawables.map (fun d => d.object) ++ obj.lights := by
  cases hd : obj.drawable <;>
    simp [register, hd, checkForMessages_renderer, addToScene_spec]

lemma rcAdd_raycastObjects (rc : RC) (nm : String) (o : Nat) :
    (rcAdd rc nm o).raycastObjects = rc.raycastObjects ++ [Pickable.obj o] := by
  cases h : mapGet rc.raycastObjectMap nm <;> simp [rcAdd, h]

lemma foldl_rcAdd_mem_mono (nm : String) (ds : List Drawable) (rc : RC) (x : Pickable)
    (hx : x ∈ rc.raycastObjects) :
    x ∈ (ds.foldl (fun rc d => rcAdd rc nm d.object) rc).raycastObjects := by
  induction ds generalizing rc with
  | nil => exact hx
  | cons d t ih =>
    apply ih
    rw [rcAdd_raycastObjects]
    exact List.mem_append_left _ hx

lemma foldl_rcAdd_mem (nm : String) (ds : List Drawable) (rc : RC) (d : Drawable)
    (hd : d ∈ ds) :
    Pickable.obj d.object ∈
      (ds.foldl (fun rc d => rcAdd rc nm d.object) rc).raycastObjects := by
  induction ds generalizing rc with
  | nil => cases hd
  | cons e t ih =>
    simp only [List.foldl_cons]
    rcases List.mem_cons.mp hd with h | h
    · subst h
      apply foldl_rcAdd_mem_mono
      rw [rcAdd_raycastObjects]
      exact List.mem_append_right _ (List.mem_singleton.mpr rfl)
    · exact ih _ h

lemma checkForMessages_raycaster (s : SM) (obj : SceneObj) :
    (checkForMessages s obj).1.raycaster = s.raycaster := by
  cases h : mapGet s.messageMap obj.name <;> simp [checkForMessages, h]

lemma register_raycaster_ready (s : SM) (obj : SceneObj) :
    (register s obj true).1.raycaster =
      (obj.drawables.filter (fun d => d.isRayCastable)).foldl
        (fun rc d => rcAdd rc obj.name d.object) s.raycaster := by
  cases hd : obj.drawable <;>
    simp [register, hd, checkForMessages_raycaster, addToScene_spec]

/-- Claim C1: a broadcastTo aimed at a name that is not registered fires no
hook and appends the message record to that name mailbox queue; when an
object with that name registers, every queued message is delivered through
its message hook in arrival order, exactly once (the message events of the
registration are exactly the queue contents, in order), and the mailbox
entry is removed. -/
theorem c1_deferred_mailbox_delivery :
    (∀ (s : SM) (f t : String) (d : Nat), mapGet s.sceneObjectMap t = none →
      (broadcastTo s f t d).2 = [] ∧
      mapGet (broadcastTo s f t d).1.messageMap t =
        some ((mapGet s.messageMap t).getD [] ++ [⟨f, t, d⟩])) ∧
    (∀ (s : SM) (obj : SceneObj) (ready : Bool),
      (register s obj ready).2.filter isMsgEv =
        ((mapGet s.messageMap obj.name).getD []).map
          (fun m => Ev.onMessage obj.name m.sender m.data) ∧
      mapGet (register s obj ready).1.messageMap obj.name = none) := by
  constructor
  · intro s f t d h
    cases h₂ : mapGet s.messageMap t <;>
      simp [broadcastTo, h, h₂, mapGet_mapSet_self]
  · intro s obj ready
    refine ⟨?_, register_messageMap_self s obj ready⟩
    rw [register_events, List.filter_append]
    have h₁ : (if obj.drawable && !ready then ([] : List Ev)
        else if ready then [Ev.onSceneStart obj.name] else []).filter isMsgEv = [] := by
      by_cases hb : (obj.drawable && !ready) = true
      · simp [hb]
      · by_cases hr : ready = true <;> simp [hb, hr, isMsgEv]
    rw [h₁, List.nil_append, deliverEvs_filter_msg]
    cases h₂ : mapGet s.messageMap obj.name <;> simp [deliverEvs, h₂]

/-- Closed instance of C1: a message queued for the unregistered name bob is
stored in the mailbox, and registering bob delivers it once and clears it. -/
theorem c1_deferred_mailbox_delivery_witness :
    mapGet SM.init.sceneObjectMap "bob" = none ∧
    (broadcastTo SM.init "alice" "bob" 7).2 = [] ∧
    mapGet (broadcastTo SM.init "alice" "bob" 7).1.messageMap "bob" =
      some [⟨"alice", "bob", 7⟩] := by
  have h := c1_deferred_mailbox_delivery.1 SM.init "alice" "bob" 7 (by decide)
  refine ⟨by decide, h.1, ?_⟩
  rw [h.2]
  decide

/-- Claim C2 evaluated at the failing input: add object 1 under name a,
then remove a.  The code splices the object out but then reassigns the flat
list to the array-of-per-name-arrays built from the map, whose entry for a
was never deleted, so object 1 is still pickable (inside the rebuilt list)
and still registered in the map.  Removing a never-added name is a no-op. -/
theorem c2_remove_keeps_removed_objects :
    (rcRemove (rcAdd RC.init "a" 1) "a").raycastObjects = [Pickable.arr [1]] ∧
    mapGet (rcRemove (rcAdd RC.init "a" 1) "a").raycastObjectMap "a" = some [1] ∧
    rcRemove RC.init "zzz" = RC.init := by decide

/-- A not-drawable object whose isReady answer is false. -/
def objNotDrawableNotReady : SceneObj := ⟨"n", false, [⟨1, true⟩], []⟩

/-- Claim C3 counterexample: registering a not-drawable object whose ready
check answers false fires no hook at all and leaves the renderer untouched,
whereas the claim requires every not-drawable object to be added
immediately with its start hook fired. -/
theorem c3_counterexample :
    objNotDrawableNotReady.drawable = false ∧
    (register SM.init objNotDrawableNotReady false).2 = [] ∧
    (register SM.init objNotDrawableNotReady false).1.renderer = [] := by decide

/-- Claim C3 as amended: drawable-and-not-ready objects are parked in the
awaiting map with no start hook and no renderer change; ready objects are
added to the renderer, their ray-castable drawables are registered with
RayCast under the object name (each one landing in the flat pickable list)
and their start hook fires; objects that are neither drawable nor ready are
neither parked nor added and no start hook fires; in every case the queued
mailbox messages are delivered. -/
theorem c3_register_branch_behaviour (s : SM) (obj : SceneObj) (ready : Bool) :
    (obj.drawable = true → ready = false →
      (register s obj ready).1.inactiveObjNameMap = mapSet s.inactiveObjNameMap obj.name () ∧
      (register s obj ready).1.renderer = s.renderer ∧
      (register s obj ready).2 = deliverEvs s.messageMap obj.name) ∧
    (ready = true →
      (register s obj ready).1.renderer =
        s.renderer ++ obj.drawables.map (fun d => d.object) ++ obj.lights ∧
      (register s obj ready).1.raycaster =
        (obj.drawables.filter (fun d => d.isRayCastable)).foldl
          (fun rc d => rcAdd rc obj.name d.object) s.raycaster ∧
      (∀ d ∈ obj.drawables, d.isRayCastable = true →
        Pickable.obj d.object ∈ (register s obj ready).1.raycaster.raycastObjects) ∧
      (register s obj ready).2 = Ev.onSceneStart obj.name :: deliverEvs s.messageMap obj.name) ∧
    (obj.drawable = false → ready = false →
      (register s obj ready).1.renderer = s.renderer ∧
      (register s obj ready).1.inactiveObjNameMap = s.inactiveObjNameMap ∧
      (register s obj ready).2 = deliverEvs s.messageMap obj.name) := by
  refine ⟨fun hd hr => ?_, fun hr => ?_, fun hd hr => ?_⟩
  · subst hr
    refine ⟨?_, ?_, ?_⟩
    · simp [register, hd, checkForMessages_inactive]
    · simp [register, hd, checkForMessages_renderer]
    · rw [register_events]; simp [hd]
  · subst hr
    refine ⟨register_renderer_ready s obj, register_raycaster_ready s obj, ?_,
      by rw [register_events]; simp⟩
    intro d hd hrc
    rw [register_raycaster_ready]
    exact foldl_rcAdd_mem obj.name _ s.raycaster d (List.mem_filter.mpr ⟨hd, hrc⟩)
  · subst hr
    refine ⟨?_, ?_, ?_⟩
    · simp [register, hd, checkForMessages_renderer]
    · simp [register, hd, checkForMessages_inactive]
    · rw [register_events]; simp [hd]

/-- A drawable object parked while not ready. -/
def objAwait : SceneObj := ⟨"w", true, [⟨3, false⟩], []⟩

/-- A ready object with one ray-castable drawable. -/
def objReadyRC : SceneObj := ⟨"v", true, [⟨21, true⟩], []⟩

/-- Closed instance of the amended C3 at a drawable not-ready object and at
a ready object whose ray-castable drawable becomes pickable. -/
theorem c3_register_branch_behaviour_witness :
    objAwait.drawable = true ∧
    (register SM.init objAwait false).1.renderer = SM.init.renderer ∧
    (register SM.init objAwait false).2 = deliverEvs SM.init.messageMap objAwait.name ∧
    Pickable.obj 21 ∈ (register SM.init objReadyRC true).1.raycaster.raycastObjects :=
  ⟨by decide, ((c3_register_branch_behaviour SM.init objAwait false).1 rfl rfl).2.1,
    ((c3_register_branch_behaviour SM.init objAwait false).1 rfl rfl).2.2,
    ((c3_register_branch_behaviour SM.init objReadyRC true).2.1 rfl).2.2.1
      ⟨21, true⟩ (by decide) rfl⟩

/-- A drawable not-ready object registered under name a. -/
def objAwaitA : SceneObj := ⟨"a", true, [⟨1, true⟩], []⟩

/-- Claim C4 evaluated at the failing input: register a drawable not-ready
object, then unregister it.  The registry entry is gone but the awaiting
map still holds the name, and the next render-loop promotion pass
dereferences the missing registry entry (none models the undefined
dereference the source would throw on). -/
theorem c4_unregister_leaves_awaiting :
    mapGet (unregister (register SM.init objAwaitA false).1 "a").1.sceneObjectMap "a" = none ∧
    mapGet (unregister (register SM.init objAwaitA false).1 "a").1.inactiveObjNameMap "a"
      = some () ∧
    queryReadyObjects (unregister (register SM.init objAwaitA false).1 "a").1
      (fun _ => true) = none := by decide

/-- A drawable not-ready object registered under name d. -/
def objAwaitD : SceneObj := ⟨"d", true, [⟨5, true⟩], []⟩

/-- Claim C5 counterexample: for the registered (awaiting) name d, whose
object still answers not ready, unregister followed by register of the same
object fires the start hook zero times and leaves the renderer empty, not
the exactly-once Active restoration the claim states for every registered
name. -/
theorem c5_counterexample :
    mapGet (register SM.init objAwaitD false).1.sceneObjectMap "d" = some objAwaitD ∧
    countStart ((unregister (register SM.init objAwaitD false).1 "d").2 ++
      (register (unregister (register SM.init objAwaitD false).1 "d").1 objAwaitD false).2)
      "d" = 0 ∧
    (register (unregister (register SM.init objAwaitD false).1 "d").1 objAwaitD false).1.renderer
      = [] := by decide

/-- Claim C5 as amended: for every registered name whose object reports
ready at re-registration, unregister followed by register fires the start
hook exactly once across the two calls and puts every drawable and light of
the object back into the renderer. -/
theorem c5_ready_reregistration (s : SM) (nm : String) (obj : SceneObj)
    (hlook : mapGet s.sceneObjectMap nm = some obj) (hname : obj.name = nm) :
    countStart ((unregister s nm).2 ++ (register (unregister s nm).1 obj true).2) nm = 1 ∧
    (∀ d ∈ obj.drawables, d.object ∈ (register (unregister s nm).1 obj true).1.renderer) ∧
    (∀ l ∈ obj.lights, l ∈ (register (unregister s nm).1 obj true).1.renderer) := by
  have hu2 : (unregister s nm).2 = [Ev.onSceneEnd nm] := by simp [unregister, hlook]
  refine ⟨?_, fun d hd => ?_, fun l hl => ?_⟩
  · rw [hu2]
    unfold countStart
    rw [List.filter_append, register_events, List.filter_append,
      deliverEvs_filter_start]
    simp [isStartEvFor, hname]
  · rw [register_renderer_ready]
    exact List.mem_append_left _ (List.mem_append_right _ (List.mem_map_of_mem _ hd))
  · rw [register_renderer_ready]
    exact List.mem_append_right _ hl

/-- A drawable ready object registered under name r. -/
def objReady : SceneObj := ⟨"r", true, [⟨9, true⟩], [11]⟩

/-- Closed instance of the amended C5 at a registered ready object. -/
theorem c5_ready_reregistration_witness :
    mapGet (register SM.init objReady true).1.sceneObjectMap "r" = some objReady ∧
    countStart ((unregister (register SM.init objReady true).1 "r").2 ++
      (register (unregister (register SM.init objReady true).1 "r").1 objReady true).2)
      "r" = 1 :=
  ⟨by decide,
    (c5_ready_reregistration (register SM.init objReady true).1 "r" objReady
      (by decide) rfl).1⟩

/-- Claim C6: shootRayFromCamera yields the empty hit list for a missing or
out-of-viewport raster coordinate; for an in-viewport coordinate it queries
RayCast at the normalized device coordinate (2 x over W minus 1, 1 minus
2 y over H) — y flipped — whose components both lie in the closed interval
from -1 to 1. -/
theorem c6_viewport_guard_and_ndc (W H : ℚ)
    (intersect : ℚ × ℚ → List Pickable → List Hit) (rc : RC) :
    (∀ o : Bool, shootRayFromCamera W H intersect rc none o = ([], [])) ∧
    (∀ (x y : ℚ) (o : Bool), x < 0 ∨ W ≤ x ∨ y < 0 ∨ H ≤ y →
      shootRayFromCamera W H intersect rc (some (x, y)) o = ([], [])) ∧
    (∀ (x y : ℚ) (o : Bool), 0 ≤ x → x < W → 0 ≤ y → y < H →
      (shootRayFromCamera W H intersect rc (some (x, y)) o).1 =
        raycastFromCamera intersect rc (x / W * 2 - 1, -(y / H) * 2 + 1) ∧
      -1 ≤ x / W * 2 - 1 ∧ x / W * 2 - 1 ≤ 1 ∧
      -1 ≤ -(y / H) * 2 + 1 ∧ -(y / H) * 2 + 1 ≤ 1) := by
  refine ⟨fun o => rfl, fun x y o h => ?_, fun x y o hx0 hxW hy0 hyH => ?_⟩
  · have hg : ¬(0 ≤ x ∧ x < W ∧ 0 ≤ y ∧ y < H) := by
      rintro ⟨h₁, h₂, h₃, h₄⟩
      rcases h with h | h | h | h <;> linarith
    simp [shootRayFromCamera, hg]
  · have hW : 0 < W := lt_of_le_of_lt hx0 hxW
    have hH : 0 < H := lt_of_le_of_lt hy0 hyH
    have ha0 : 0 ≤ x / W := div_nonneg hx0 (le_of_lt hW)
    have ha1 : x / W < 1 := (div_lt_one hW).mpr hxW
    have hb0 : 0 ≤ y / H := div_nonneg hy0 (le_of_lt hH)
    have hb1 : y / H < 1 := (div_lt_one hH).mpr hyH
    have hg : 0 ≤ x ∧ x < W ∧ 0 ≤ y ∧ y < H := ⟨hx0, hxW, hy0, hyH⟩
    refine ⟨?_, by linarith, by linarith, by linarith, by linarith⟩
    simp [shootRayFromCamera, hg]

/-- Closed instance of C6: missing and out-of-viewport coordinates give no
hits, and an in-viewport coordinate reaches RayCast at the converted
normalized device coordinate. -/
theorem c6_viewport_guard_and_ndc_witness :
    shootRayFromCamera 100 50 (fun _ _ => []) RC.init none true = ([], []) ∧
    shootRayFromCamera 100 50 (fun _ _ => []) RC.init (some (120, 10)) true = ([], []) ∧
    (shootRayFromCamera 100 50 (fun _ _ => []) RC.init (some (50, 10)) false).1 =
      raycastFromCamera (fun _ _ => []) RC.init (50 / 100 * 2 - 1, -(10 / 50) * 2 + 1) :=
  ⟨(c6_viewport_guard_and_ndc 100 50 (fun _ _ => []) RC.init).1 true,
    (c6_viewport_guard_and_ndc 100 50 (fun _ _ => []) RC.init).2.1 120 10 true
      (Or.inr (Or.inl (by decide))),
    ((c6_viewport_guard_and_ndc 100 50 (fun _ _ => []) RC.init).2.2 50 10 false
      (by decide) (by decide) (by decide) (by decide)).1⟩

/-- In-bounds reduction of shootRayFromCamera: the hit list is the RayCast
query at the converted coordinate and the event list outlines its head when
outlineNearest holds. -/
lemma shootRay_inbounds (W H : ℚ) (intersect : ℚ × ℚ → List Pickable → List Hit)
    (rc : RC) (x y : ℚ) (o : Bool) (hg : 0 ≤ x ∧ x < W ∧ 0 ≤ y ∧ y < H) :
    shootRayFromCamera W H intersect rc (some (x, y)) o =
      (raycastFromCamera intersect rc (x / W * 2 - 1, -(y / H) * 2 + 1),
       match o, raycastFromCamera intersect rc (x / W * 2 - 1, -(y / H) * 2 + 1) with
       | true, h :: _ => [Ev.outline [h.object]]
       | _, _ => []) := by
  unfold shootRayFromCamera
  dsimp only
  rw [if_pos hg]

/-- The RayCast query result keeps the ordering of the underlying
intersection test. -/
lemma raycastFromCamera_sorted (intersect : ℚ × ℚ → List Pickable → List Hit)
    (rc : RC) (p : ℚ × ℚ)
    (hsort : ∀ q objs, sortedByDistance (intersect q objs) = true) :
    sortedByDistance (raycastFromCamera intersect rc p) = true := by
  unfold raycastFromCamera
  by_cases hl : (intersect p rc.raycastObjects).length > 0
  · simp only [hl, if_pos, if_true]
    exact hsort p rc.raycastObjects
  · simp only [hl, if_false]
    rfl

/-- Claim C7: for an in-viewport raster coordinate, when the underlying
intersection test yields hit lists ordered by non-decreasing distance, the
hit list shootRayFromCamera returns is so ordered, being the underlying
list itself, and when outlineNearest holds and a hit exists the outline
request names exactly the first (nearest) hit object. -/
theorem c7_sorted_hits_outline_nearest (W H : ℚ)
    (intersect : ℚ × ℚ → List Pickable → List Hit) (rc : RC) (x y : ℚ) (o : Bool)
    (hx0 : 0 ≤ x) (hxW : x < W) (hy0 : 0 ≤ y) (hyH : y < H)
    (hsort : ∀ p objs, sortedByDistance (intersect p objs) = true) :
    sortedByDistance (shootRayFromCamera W H intersect rc (some (x, y)) o).1 = true ∧
    (∀ h t, o = true →
      (shootRayFromCamera W H intersect rc (some (x, y)) o).1 = h :: t →
      (shootRayFromCamera W H intersect rc (some (x, y)) o).2 = [Ev.outline [h.object]]) := by
  have hg : 0 ≤ x ∧ x < W ∧ 0 ≤ y ∧ y < H := ⟨hx0, hxW, hy0, hyH⟩
  rw [shootRay_inbounds W H intersect rc x y o hg]
  refine ⟨raycastFromCamera_sorted intersect rc _ hsort, ?_⟩
  intro h t ho hht
  subst ho
  simp only at hht
  rw [hht]

/-- The constant two-hit sorted intersection result of the C7 witness. -/
def intersectW : ℚ × ℚ → List Pickable → List Hit := fun _ _ => [⟨1, 7⟩, ⟨2, 9⟩]

/-- Closed instance of C7 with a two-hit sorted intersection result. -/
theorem c7_sorted_hits_outline_nearest_witness :
    sortedByDistance
      (shootRayFromCamera 100 50 intersectW RC.init (some (50, 10)) true).1 = true ∧
    (shootRayFromCamera 100 50 intersectW RC.init (some (50, 10)) true).2
      = [Ev.outline [7]] :=
  ⟨(c7_sorted_hits_outline_nearest 100 50 intersectW RC.init
      50 10 true (by decide) (by decide) (by decide) (by decide)
      (fun _ _ => by show sortedByDistance [⟨1, 7⟩, ⟨2, 9⟩] = true; decide)).1,
    (c7_sorted_hits_outline_nearest 100 50 intersectW RC.init
      50 10 true (by decide) (by decide) (by decide) (by decide)
      (fun _ _ => by show sortedByDistance [⟨1, 7⟩, ⟨2, 9⟩] = true; decide)).2
      ⟨1, 7⟩ [⟨2, 9⟩] rfl (by decide)⟩

lemma onMove_pitch_le (c : ℚ) (st : FPCam) (dx dy px py : ℚ)
    (h : -85 ≤ toDegrees c st.rotX ∧ toDegrees c st.rotX ≤ 85) :
    -85 ≤ toDegrees c (onMoveEvent c st dx dy px py).rotX ∧
      toDegrees c (onMoveEvent c st dx dy px py).rotX ≤ 85 := by
  by_cases hg : -85 < toDegrees c (st.rotX - dy) ∧ toDegrees c (st.rotX - dy) < 85
  · have hx : -85 ≤ toDegrees c (st.rotX - dy) ∧ toDegrees c (st.rotX - dy) ≤ 85 :=
      ⟨le_of_lt hg.1, le_of_lt hg.2⟩
    simpa [onMoveEvent, hg] using hx
  · simpa [onMoveEvent, hg] using h

/-- Claim C8: a pitch whose degree value starts between -85 and 85 stays
between -85 and 85 after any sequence of cursor-drag move events, and a
single drag whose proposed pitch in degrees falls outside that range leaves
the pitch unchanged.  The degree conversion is multiplication by the factor
c standing for 180 over pi. -/
theorem c8_pitch_clamp (c : ℚ) (st : FPCam) (evs : List (ℚ × ℚ × ℚ × ℚ)) :
    ((-85 ≤ toDegrees c st.rotX ∧ toDegrees c st.rotX ≤ 85) →
      -85 ≤ toDegrees c (runMoves c st evs).rotX ∧
        toDegrees c (runMoves c st evs).rotX ≤ 85) ∧
    (∀ dx dy px py : ℚ,
      (toDegrees c (st.rotX - dy) < -85 ∨ 85 < toDegrees c (st.rotX - dy)) →
      (onMoveEvent c st dx dy px py).rotX = st.rotX) := by
  constructor
  · induction evs generalizing st with
    | nil => intro h; simpa [runMoves] using h
    | cons e t ih =>
      intro h
      have h₁ := onMove_pitch_le c st e.1 e.2.1 e.2.2.1 e.2.2.2 h
      simpa [runMoves] using ih _ h₁
  · intro dx dy px py h
    have hg : ¬(-85 < toDegrees c (st.rotX - dy) ∧ toDegrees c (st.rotX - dy) < 85) := by
      rintro ⟨h₁, h₂⟩
      rcases h with h | h <;> linarith
    simp [onMoveEvent, hg]

/-- An initial camera pose at the origin. -/
def st0fp : FPCam := ⟨0, 0, 0, 0, 0, 0⟩

/-- Closed instance of C8: from pitch zero a drag stays clamped, and a drag
proposing a pitch of -100 radians (beyond -85 degrees at factor one) is
rejected. -/
theorem c8_pitch_clamp_witness :
    (-85 ≤ toDegrees 1 (runMoves 1 st0fp [(3, 2, 0, 0)]).rotX ∧
      toDegrees 1 (runMoves 1 st0fp [(3, 2, 0, 0)]).rotX ≤ 85) ∧
    (onMoveEvent 1 st0fp 3 100 0 0).rotX = st0fp.rotX :=
  ⟨(c8_pitch_clamp 1 st0fp [(3, 2, 0, 0)]).1
      (by simp only [st0fp, toDegrees, zero_mul]; exact ⟨by decide, by decide⟩),
    (c8_pitch_clamp 1 st0fp []).2 3 100 0 0
      (Or.inl (by simp only [st0fp, toDegrees, mul_one, zero_sub]; decide))⟩

/-- Claim C9: broadcastToAll leaves the state (the mailbox map included)
unchanged and its message events are exactly one delivery to each stored
registry object whose key differs from the sender, and nothing else. -/
theorem c9_broadcast_all (s : SM) (sender : String) (d : Nat) :
    (broadcastToAll s sender d).1 = s ∧
    (∀ kv ∈ s.sceneObjectMap, kv.1 ≠ sender →
      Ev.onMessage kv.2.name sender d ∈ (broadcastToAll s sender d).2) ∧
    (∀ e ∈ (broadcastToAll s sender d).2,
      ∃ kv ∈ s.sceneObjectMap, kv.1 ≠ sender ∧ e = Ev.onMessage kv.2.name sender d) ∧
    (broadcastToAll s sender d).1.messageMap = s.messageMap := by
  refine ⟨rfl, ?_, ?_, rfl⟩
  · intro kv hkv hne
    refine List.mem_filterMap.mpr ⟨kv, hkv, ?_⟩
    simp [hne]
  · intro e he
    obtain ⟨a, ha, hfa⟩ := List.mem_filterMap.mp he
    by_cases hne : a.1 ≠ sender
    · refine ⟨a, ha, hne, ?_⟩
      simp only [if_pos hne] at hfa
      exact (Option.some.injEq _ _ ▸ hfa).symm
    · exfalso
      simp [hne] at hfa

/-- Registered object a used by the C9 witness. -/
def objWa : SceneObj := ⟨"a", false, [], []⟩

/-- Registered object b used by the C9 witness. -/
def objWb : SceneObj := ⟨"b", false, [], []⟩

/-- A state with two registered objects a and b. -/
def sW : SM := ⟨[("a", objWa), ("b", objWb)], [], [], RC.init, []⟩

/-- Closed instance of C9: object a broadcasting reaches b and the state is
untouched. -/
theorem c9_broadcast_all_witness :
    (broadcastToAll sW "a" 3).1 = sW ∧
    Ev.onMessage "b" "a" 3 ∈ (broadcastToAll sW "a" 3).2 :=
  ⟨(c9_broadcast_all sW "a" 3).1,
    (c9_broadcast_all sW "a" 3).2.1 ("b", objWb) (by decide) (by decide)⟩

/-- Claim C10: every cursor-drag move event subtracts deltaX from the yaw,
and when the proposed pitch is rejected by the 85-degree check the whole
resulting camera state equals the input state with only the yaw changed. -/
theorem c10_yaw_always_applied (c : ℚ) (st : FPCam) (dx dy px py : ℚ) :
    (onMoveEvent c st dx dy px py).rotY = st.rotY - dx ∧
    (¬(-85 < toDegrees c (st.rotX - dy) ∧ toDegrees c (st.rotX - dy) < 85) →
      onMoveEvent c st dx dy px py = { st with rotY := st.rotY - dx }) := by
  constructor
  · by_cases hg : -85 < toDegrees c (st.rotX - dy) ∧ toDegrees c (st.rotX - dy) < 85 <;>
      simp [onMoveEvent, hg]
  · intro hg
    simp [onMoveEvent, hg]

/-- Closed instance of C10: a rejected pitch (-100 radians proposed) still
changes yaw by minus deltaX and changes nothing else. -/
theorem c10_yaw_always_applied_witness :
    (onMoveEvent 1 st0fp 2 100 0 0).rotY = st0fp.rotY - 2 ∧
    onMoveEvent 1 st0fp 2 100 0 0 = { st0fp with rotY := st0fp.rotY - 2 } :=
  ⟨(c10_yaw_always_applied 1 st0fp 2 100 0 0).1,
    (c10_yaw_always_applied 1 st0fp 2 100 0 0).2
      (by simp only [st0fp, toDegrees, mul_one, zero_sub]; decide)⟩

end ModelStyler
